import Mathlib

/-!
Resume analysis server (`server.js`).

A shallow embedding of the two functions of `server.js` that carry logic:
`analyzeResume` (the scoring engine) and `appendToExcel` (the submission
logger), followed by the properties proved about them.

Conventions of the embedding.

* JavaScript strings are Lean `String`s (well-formed Unicode text).  The
  built-ins `split(',')`, `trim`, `includes` and `join(', ')` are written out
  on the character lists.
* `String.prototype.toLowerCase` depends on the Unicode case tables; it is a
  parameter `toLowerCase : String → String` of every definition that calls it,
  so each theorem holds for every lowering function.  `asciiLower` is the
  instance used for concrete evaluation.
* JavaScript numbers are `JsNumber`: `NaN`, `+Infinity`, or an exact rational.
  IEEE rounding of finite values is not modelled; the quotients `0/n`, `n/n`
  and `1/2` and the sums `0`, `75` and `100` that the theorems below name are
  exact in double precision as well.
* A thrown `TypeError` is the `Except.error` result.
* The spreadsheet library is modelled on cell grids: a worksheet is the list of
  its rows, a row the list of its cells, and a file holds the workbook last
  written to it.
-/

namespace ResumeServer

/-! ## JavaScript values -/

/-- A JavaScript number: `NaN`, `+Infinity` or a finite value, the finite
values taken as exact rationals. -/
inductive JsNumber where
  | nan
  | inf
  | num (q : ℚ)
  deriving DecidableEq

/-- A JavaScript value as it occurs in a parsed sheet row or in a form field. -/
inductive JsValue where
  | undefined
  | str (s : String)
  | number (n : JsNumber)
  | bool (b : Bool)
  deriving DecidableEq

/-- The operator `===`: equal type and equal value, `NaN` being different from
everything, itself included. -/
def strictEq : JsValue → JsValue → Bool
  | .number .nan, _ => false
  | _, .number .nan => false
  | a, b => decide (a = b)

/-- The quotient `a / b` of two array lengths: `0 / 0` is `NaN`, `a / 0` with
`a > 0` is `Infinity`. -/
def JsNumber.divLengths (a b : Nat) : JsNumber :=
  if b = 0 then (if a = 0 then .nan else .inf) else .num ((a : ℚ) / (b : ℚ))

/-- The product `x * k` with a positive finite constant `k`. -/
def JsNumber.mulPos : JsNumber → ℚ → JsNumber
  | .nan, _ => .nan
  | .inf, _ => .inf
  | .num q, k => .num (q * k)

/-- The sum `x + y`. -/
def JsNumber.add : JsNumber → JsNumber → JsNumber
  | .nan, _ => .nan
  | _, .nan => .nan
  | .inf, _ => .inf
  | _, .inf => .inf
  | .num p, .num q => .num (p + q)

/-- The comparison `x === k` with a finite constant `k`. -/
def JsNumber.eqNum : JsNumber → ℚ → Bool
  | .num q, k => decide (q = k)
  | _, _ => false

/-- The comparison `x >= k` with a finite constant `k` (false for `NaN`). -/
def JsNumber.geNum : JsNumber → ℚ → Bool
  | .num q, k => decide (k ≤ q)
  | .inf, _ => true
  | .nan, _ => false

/-! ## String built-ins -/

/-- The code points that `trim` strips: ECMAScript WhiteSpace and
LineTerminator. -/
def isWhiteSpace (c : Char) : Bool :=
  let n := c.toNat
  n = 0x09 || n = 0x0A || n = 0x0B || n = 0x0C || n = 0x0D || n = 0x20 ||
  n = 0xA0 || n = 0x1680 || (0x2000 ≤ n && n ≤ 0x200A) || n = 0x2028 ||
  n = 0x2029 || n = 0x202F || n = 0x205F || n = 0x3000 || n = 0xFEFF

/-- The built-in `trim` on a character list. -/
def trimChars (cs : List Char) : List Char :=
  ((cs.dropWhile isWhiteSpace).reverse.dropWhile isWhiteSpace).reverse

/-- The built-in `String.prototype.trim`. -/
def trim (s : String) : String := ⟨trimChars s.data⟩

/-- The built-in `split(',')` on a character list: the pieces between the
commas; there is always at least one piece. -/
def splitChars : List Char → List (List Char)
  | [] => [[]]
  | c :: cs =>
    if c = ',' then [] :: splitChars cs
    else
      match splitChars cs with
      | [] => [[c]]
      | t :: ts => (c :: t) :: ts

/-- The built-in `s.split(',')`. -/
def split (s : String) : List String := (splitChars s.data).map String.mk

/-- The built-in `includes` on character lists: `search` occurs at some
position of `cs`. -/
def includesChars : List Char → List Char → Bool
  | [], search => search.isEmpty
  | c :: cs, search => search.isPrefixOf (c :: cs) || includesChars cs search

/-- The built-in `s.includes(search)`. -/
def includes (s search : String) : Bool := includesChars s.data search.data

/-- The built-in `xs.join(', ')`. -/
def join : List String → String
  | [] => ""
  | [x] => x
  | x :: y :: rest => x ++ ", " ++ join (y :: rest)

/-- Lowering of the ASCII letters, the instance of `toLowerCase` used for
concrete evaluation. -/
def asciiLower (s : String) : String := ⟨s.data.map Char.toLower⟩

/-! ## `analyzeResume` -/

/-- A row of the catalog as `sheet_to_json` returns it; the three keys that
`analyzeResume` reads.  A key absent from the row reads as `undefined`. -/
structure Row where
  /-- The value of `item['JOB ROLES']`. -/
  jobRoles : JsValue
  /-- The value of `item['PROGRAMMING SKILLS']`. -/
  programmingSkills : JsValue
  /-- The value of `item['FRAMEWORKS']`. -/
  frameworks : JsValue
  deriving DecidableEq

/-- The object returned by `analyzeResume`. -/
structure AnalysisResult where
  jobRole : JsValue
  probability : JsNumber
  additionalSkills : String
  additionalFrameworks : String
  feedback : String
  deriving DecidableEq

/-- The exception a method call on a non-string value raises. -/
inductive JsError where
  | typeError
  deriving DecidableEq

/-- The fixed message of the not-found result. -/
def notFoundMessage : String := "Job role not found in the dataset"

/-- The feedback of a perfect match. -/
def perfectMessage : String := "Great job! You are a perfect match for this role!"

/-- The prefix of the feedback of a partial match. -/
def partialPrefix : String :=
  "You have some of the required skills and frameworks. Consider improving: "

/-- The prefix of the feedback of a weak match. -/
def improvePrefix : String :=
  "You need to improve your skills and frameworks significantly. Consider learning: "

/-- The expression `field.split(',').map(x => x.trim())`; it throws when the
field is not a string. -/
def requiredTokens : JsValue → Except JsError (List String)
  | .str s => .ok ((split s).map trim)
  | _ => .error .typeError

/-- The test of the two `forEach` loops:
`resumeText.toLowerCase().includes(token.toLowerCase())`. -/
def tokenFound (toLowerCase : String → String) (resumeText token : String) : Bool :=
  includes (toLowerCase resumeText) (toLowerCase token)

/-- One `forEach` loop: each token is pushed to the found list or to the
additional list.  The result is `(found, additional)`. -/
def classify (toLowerCase : String → String) (resumeText : String)
    (required : List String) : List String × List String :=
  required.foldl
    (fun acc token =>
      if tokenFound toLowerCase resumeText token then (acc.1 ++ [token], acc.2)
      else (acc.1, acc.2 ++ [token]))
    ([], [])

/-- The expression `xs.join(', ') || 'None'`. -/
def joinOrNone (xs : List String) : String :=
  if join xs = "" then "None" else join xs

/-- The part of `analyzeResume` after the two token lists are built: the two
loops, the probability and the choice of the feedback.  The initial value of
`feedback` is overwritten on each of the three branches and does not appear. -/
def score (toLowerCase : String → String) (resumeText : String) (jobRole : JsValue)
    (requiredSkills requiredFrameworks : List String) : AnalysisResult :=
  let skills := classify toLowerCase resumeText requiredSkills
  let frameworks := classify toLowerCase resumeText requiredFrameworks
  let skillsProbability :=
    (JsNumber.divLengths skills.1.length requiredSkills.length).mulPos 50
  let frameworksProbability :=
    (JsNumber.divLengths frameworks.1.length requiredFrameworks.length).mulPos 50
  let probability := skillsProbability.add frameworksProbability
  let feedback :=
    if probability.eqNum 100 then perfectMessage
    else if probability.geNum 50 then
      partialPrefix ++ join skills.2 ++ ", " ++ join frameworks.2
    else
      improvePrefix ++ join skills.2 ++ ", " ++ join frameworks.2
  { jobRole := jobRole
    probability := probability
    additionalSkills := joinOrNone skills.2
    additionalFrameworks := joinOrNone frameworks.2
    feedback := feedback }

/-- The function `analyzeResume(resumeText, jobRole, excelData)`. -/
def analyzeResume (toLowerCase : String → String) (resumeText : String)
    (jobRole : JsValue) (excelData : List Row) : Except JsError AnalysisResult :=
  match excelData.find? (fun item => strictEq item.jobRoles jobRole) with
  | none =>
    .ok { jobRole := jobRole
          probability := .num 0
          additionalSkills := notFoundMessage
          additionalFrameworks := notFoundMessage
          feedback := notFoundMessage }
  | some jobData =>
    match requiredTokens jobData.programmingSkills with
    | .error e => .error e
    | .ok requiredSkills =>
      match requiredTokens jobData.frameworks with
      | .error e => .error e
      | .ok requiredFrameworks =>
        .ok (score toLowerCase resumeText jobRole requiredSkills requiredFrameworks)

/-- The function `readExcelData` as a function of the outcome of its `try`
body: the parsed rows, or the empty array when reading or parsing throws. -/
def readExcelData (parsed : Except JsError (List Row)) : List Row :=
  match parsed with
  | .ok jsonData => jsonData
  | .error _ => []

/-- The tokens of a string field: `field.split(',').map(x => x.trim())`. -/
def tokens (field : String) : List String := (split field).map trim

/-- The required tokens that occur in the resume text, in catalog order. -/
def matched (toLowerCase : String → String) (resumeText : String)
    (required : List String) : List String :=
  required.filter (fun t => tokenFound toLowerCase resumeText t)

/-- The required tokens that do not occur in the resume text, in catalog
order. -/
def missing (toLowerCase : String → String) (resumeText : String)
    (required : List String) : List String :=
  required.filter (fun t => !tokenFound toLowerCase resumeText t)

/-- The share of the required tokens found in the resume text, times 50. -/
def termScore (toLowerCase : String → String) (resumeText : String)
    (required : List String) : ℚ :=
  ((matched toLowerCase resumeText required).length : ℚ) / (required.length : ℚ) * 50

/-! ## The spreadsheet library -/

/-- A JavaScript object with string keys: its own properties in insertion
order. -/
abbrev JsObject := List (String × JsValue)

/-- A worksheet: the cells of its used range, row by row from `A1`; `none` is a
position without a cell. -/
abbrev Worksheet := List (List (Option JsValue))

/-- A workbook: the sheet names in order and the sheet of each name. -/
structure Workbook where
  SheetNames : List String
  Sheets : List (String × Worksheet)
  deriving DecidableEq

/-- The header passed to `json_to_sheet` by `appendToExcel`. -/
def logHeader : List String :=
  ["First Name", "Email", "Phone", "Signup Date", "Signup Time", "Job Role",
   "Probability Score", "Resume File"]

/-- The object literal passed to `sheet_add_json` when the file is created. -/
def emptyRecord : JsObject :=
  [("First Name", .str ""), ("Email", .str ""), ("Phone", .str ""), ("Signup Date", .str ""),
   ("Signup Time", .str ""), ("Job Role", .str ""), ("Probability Score", .str ""),
   ("Resume File", .str "")]

/-- The header of `sheet_add_json` after the rows are processed: each key not
yet in the header is appended to it. -/
def extendHeader (header : List String) (js : List JsObject) : List String :=
  js.foldl (fun hdr o => o.foldl (fun h kv => if kv.1 ∈ h then h else h ++ [kv.1]) hdr) header

/-- The cells that `sheet_add_json` writes for one object: under each header
name the value of that key; an absent or `undefined` value leaves no cell. -/
def rowCells (hdr : List String) (o : JsObject) : List (Option JsValue) :=
  hdr.map (fun k =>
    match o.lookup k with
    | some .undefined => none
    | some v => some v
    | none => none)

/-- Writing the cells of one row over an existing row. -/
def overlayRow : List (Option JsValue) → List (Option JsValue) → List (Option JsValue)
  | [], new => new
  | old, [] => old
  | o :: os, n :: ns => (n.orElse fun _ => o) :: overlayRow os ns

/-- Writing a block of cells over an existing sheet, from `A1`. -/
def overlay : Worksheet → Worksheet → Worksheet
  | [], new => new
  | old, [] => old
  | o :: os, n :: ns => overlayRow o n :: overlay os ns

/-- The library call `sheet_add_json(ws, js, { header, skipHeader: false,
origin: 'A1' })`: the header names in row 1, one row of cells per object
below it, written over `ws`. -/
def sheet_add_json (ws : Worksheet) (header : List String) (js : List JsObject) : Worksheet :=
  let hdr := extendHeader header js
  overlay ws (hdr.map (fun k => some (.str k)) :: js.map (rowCells hdr))

/-- The library call `json_to_sheet(js, { header })`: `sheet_add_json` on a
fresh sheet. -/
def json_to_sheet (header : List String) (js : List JsObject) : Worksheet :=
  sheet_add_json [] header js

/-- The property names `sheet_to_json` takes from the first row, for a first
row of text cells (`none` otherwise). -/
def headerNames : List (Option JsValue) → Option (List String)
  | [] => some []
  | some (.str s) :: rest => (headerNames rest).map (fun names => s :: names)
  | _ :: _ => none

/-- The object `sheet_to_json` builds from one row with `defval: ''`: each
header name maps to the value of the cell, or to `''` where there is no
cell. -/
def makeJsonRow : List String → List (Option JsValue) → JsObject
  | [], _ => []
  | k :: ks, [] => (k, .str "") :: makeJsonRow ks []
  | k :: ks, c :: cs => (k, c.getD (.str "")) :: makeJsonRow ks cs

/-- The library call `sheet_to_json(ws, { defval: '' })`: one object per row
below the first that has at least one cell, blank rows being skipped.  A text
cell that holds the empty string is a cell, so a row of such cells is not
blank.  The result is `none` where the first row is not a row of distinct text
cells covering the used range; the naming of such columns is not part of this
model. -/
def sheet_to_json (ws : Worksheet) : Option (List JsObject) :=
  match ws with
  | [] => some []
  | first :: rest =>
    match headerNames first with
    | none => none
    | some hdr =>
      if hdr.Nodup ∧ rest.all (fun cells => cells.length ≤ hdr.length) then
        some ((rest.filter (fun cells => cells.any Option.isSome)).map (makeJsonRow hdr))
      else none

/-- The library call `book_new()`. -/
def book_new : Workbook := ⟨[], []⟩

/-- The library call `book_append_sheet(wb, ws, name)`. -/
def book_append_sheet (wb : Workbook) (ws : Worksheet) (name : String) : Workbook :=
  ⟨wb.SheetNames ++ [name], wb.Sheets ++ [(name, ws)]⟩

/-- The assignment `wb.Sheets[name] = ws`. -/
def setSheet (sheets : List (String × Worksheet)) (name : String) (ws : Worksheet) :
    List (String × Worksheet) :=
  match sheets with
  | [] => [(name, ws)]
  | (n, w) :: rest => if n = name then (n, ws) :: rest else (n, w) :: setSheet rest name ws

/-- The function `appendToExcel(filePath, data)` as a function of the file at
`filePath` (`none`: no file there; `some wb`: a file that `readFile` parses to
`wb`, which is also what `writeFileSync` stores, empty text cells included).
In the creation branch the sheet appended to the new workbook is the object
that `sheet_add_json` then fills, so the workbook holds the filled sheet.  The
result is the workbook written, or `none` when the call throws before
writing. -/
def appendToExcel (file : Option Workbook) (data : JsObject) : Option Workbook :=
  let workbook : Workbook :=
    match file with
    | some wb => wb
    | none =>
      book_append_sheet book_new (sheet_add_json (json_to_sheet [] []) [] [emptyRecord]) "UserData"
  match workbook.SheetNames.head? with
  | none => none
  | some name =>
    match workbook.Sheets.lookup name with
    | none => none
    | some worksheet =>
      match sheet_to_json worksheet with
      | none => none
      | some existingData =>
        let newWorksheet := json_to_sheet logHeader (existingData ++ [data])
        some { workbook with Sheets := setSheet workbook.Sheets name newWorksheet }

/-- The row object built by the upload handler. -/
structure SubmissionRecord where
  firstName : String
  email : String
  phone : String
  signupDate : String
  signupTime : String
  jobRole : String
  probabilityScore : JsNumber
  resumeFile : String

/-- The object literal `excelDataRow` of the upload handler. -/
def SubmissionRecord.toObject (r : SubmissionRecord) : JsObject :=
  [("First Name", .str r.firstName), ("Email", .str r.email), ("Phone", .str r.phone),
   ("Signup Date", .str r.signupDate), ("Signup Time", .str r.signupTime),
   ("Job Role", .str r.jobRole), ("Probability Score", .number r.probabilityScore),
   ("Resume File", .str r.resumeFile)]

/-- The cells of the log row of a record. -/
def SubmissionRecord.cells (r : SubmissionRecord) : List (Option JsValue) :=
  [some (.str r.firstName), some (.str r.email), some (.str r.phone),
   some (.str r.signupDate), some (.str r.signupTime), some (.str r.jobRole),
   some (.number r.probabilityScore), some (.str r.resumeFile)]

/-! ## Lemmas on the built-ins -/

theorem splitChars_ne_nil (cs : List Char) : splitChars cs ≠ [] := by
  induction cs with
  | nil => simp [splitChars]
  | cons c cs ih =>
    unfold splitChars
    split
    · simp
    · split <;> simp

theorem tokens_ne_nil (field : String) : tokens field ≠ [] := by
  simp [tokens, split, splitChars_ne_nil]

theorem tokens_length_pos (field : String) : 0 < (tokens field).length :=
  List.length_pos.mpr (tokens_ne_nil field)

theorem includesChars_nil (cs : List Char) : includesChars cs [] = true := by
  cases cs <;> simp [includesChars]

theorem includes_empty (s : String) : includes s "" = true := by
  simp [includes, includesChars_nil]

theorem append_eq_empty {a b : String} (h : a ++ b = "") : a = "" ∧ b = "" := by
  have h1 := String.ext_iff.mp h
  simp only [String.data_append] at h1
  have h2 : a.data = [] ∧ b.data = [] := List.append_eq_nil.mp h1
  exact ⟨String.ext h2.1, String.ext h2.2⟩

theorem join_ne_empty (xs : List String) (hne : xs ≠ []) (h : ∀ x ∈ xs, x ≠ "") :
    join xs ≠ "" := by
  match xs, hne, h with
  | [x], _, h => simpa [join] using h
  | x :: y :: rest, _, h =>
    intro hj
    simp only [join] at hj
    have h1 := (append_eq_empty hj).1
    have h2 := (append_eq_empty h1).1
    exact h x (by simp) h2

theorem join_append (xs ys : List String) (hx : xs ≠ []) (hy : ys ≠ []) :
    join (xs ++ ys) = join xs ++ ", " ++ join ys := by
  induction xs with
  | nil => exact absurd rfl hx
  | cons x xs ih =>
    cases xs with
    | nil =>
      cases ys with
      | nil => exact absurd rfl hy
      | cons y ys => simp [join]
    | cons x2 xs =>
      have := ih (by simp)
      simp only [List.cons_append] at this ⊢
      simp only [join, this, String.append_assoc]

theorem classify_eq (toLowerCase : String → String) (resumeText : String)
    (required : List String) :
    classify toLowerCase resumeText required =
      (matched toLowerCase resumeText required, missing toLowerCase resumeText required) := by
  have key : ∀ (req : List String) (a b : List String),
      req.foldl
        (fun acc token =>
          if tokenFound toLowerCase resumeText token then (acc.1 ++ [token], acc.2)
          else (acc.1, acc.2 ++ [token]))
        (a, b) =
      (a ++ req.filter (fun t => tokenFound toLowerCase resumeText t),
       b ++ req.filter (fun t => !tokenFound toLowerCase resumeText t)) := by
    intro req
    induction req with
    | nil => intro a b; simp
    | cons t req ih =>
      intro a b
      by_cases ht : tokenFound toLowerCase resumeText t = true
      · simp [List.foldl, ht, ih]
      · simp only [Bool.not_eq_true] at ht
        simp [List.foldl, ht, ih]
  simpa [classify, matched, missing] using key required [] []

theorem matched_length_le (toLowerCase : String → String) (resumeText : String)
    (required : List String) :
    (matched toLowerCase resumeText required).length ≤ required.length :=
  List.length_filter_le _ _

theorem find_first (jobRole : JsValue) (pre post : List Row) (row : Row)
    (hpre : ∀ item ∈ pre, strictEq item.jobRoles jobRole = false)
    (hrow : strictEq row.jobRoles jobRole = true) :
    (pre ++ row :: post).find? (fun item => strictEq item.jobRoles jobRole) = some row := by
  induction pre with
  | nil => simp [List.find?, hrow]
  | cons p pre ih =>
    have hp := hpre p (by simp)
    have := ih (fun item hi => hpre item (by simp [hi]))
    simp [List.find?, hp, this]

theorem find_none (jobRole : JsValue) (excelData : List Row)
    (h : ∀ item ∈ excelData, strictEq item.jobRoles jobRole = false) :
    excelData.find? (fun item => strictEq item.jobRoles jobRole) = none := by
  rw [List.find?_eq_none]
  intro item hi
  simp [h item hi]

/-- The result of `analyzeResume` when the first matching row has string
fields. -/
theorem analyzeResume_found (toLowerCase : String → String) (resumeText : String)
    (jobRole : JsValue) (pre post : List Row) (role : JsValue) (skills frameworks : String)
    (hpre : ∀ item ∈ pre, strictEq item.jobRoles jobRole = false)
    (hrow : strictEq role jobRole = true) :
    analyzeResume toLowerCase resumeText jobRole
        (pre ++ ⟨role, .str skills, .str frameworks⟩ :: post) =
      .ok (score toLowerCase resumeText jobRole (tokens skills) (tokens frameworks)) := by
  have hf := find_first jobRole pre post ⟨role, .str skills, .str frameworks⟩ hpre hrow
  simp [analyzeResume, hf, requiredTokens, tokens]

theorem termScore_nonneg (toLowerCase : String → String) (resumeText : String)
    (required : List String) : 0 ≤ termScore toLowerCase resumeText required := by
  unfold termScore
  positivity

theorem termScore_le (toLowerCase : String → String) (resumeText : String)
    (required : List String) : termScore toLowerCase resumeText required ≤ 50 := by
  unfold termScore
  have hle : ((matched toLowerCase resumeText required).length : ℚ) ≤ (required.length : ℚ) := by
    exact_mod_cast matched_length_le toLowerCase resumeText required
  have h0 : (0 : ℚ) ≤ (required.length : ℚ) := by positivity
  have h1 : ((matched toLowerCase resumeText required).length : ℚ) / (required.length : ℚ) ≤ 1 :=
    div_le_one_of_le₀ hle h0
  linarith

theorem score_probability (toLowerCase : String → String) (resumeText : String)
    (jobRole : JsValue) (rs rf : List String) (hs : rs ≠ []) (hf : rf ≠ []) :
    (score toLowerCase resumeText jobRole rs rf).probability =
      .num (termScore toLowerCase resumeText rs + termScore toLowerCase resumeText rf) := by
  have h1 : rs.length ≠ 0 := by simpa using hs
  have h2 : rf.length ≠ 0 := by simpa using hf
  simp [score, classify_eq, JsNumber.divLengths, h1, h2, JsNumber.mulPos, JsNumber.add, termScore]

theorem score_feedback (toLowerCase : String → String) (resumeText : String)
    (jobRole : JsValue) (rs rf : List String) (hs : rs ≠ []) (hf : rf ≠ []) :
    (score toLowerCase resumeText jobRole rs rf).feedback =
      if termScore toLowerCase resumeText rs + termScore toLowerCase resumeText rf = 100 then
        perfectMessage
      else if 50 ≤ termScore toLowerCase resumeText rs + termScore toLowerCase resumeText rf then
        partialPrefix ++ join (missing toLowerCase resumeText rs) ++ ", " ++
          join (missing toLowerCase resumeText rf)
      else
        improvePrefix ++ join (missing toLowerCase resumeText rs) ++ ", " ++
          join (missing toLowerCase resumeText rf) := by
  have h1 : rs.length ≠ 0 := by simpa using hs
  have h2 : rf.length ≠ 0 := by simpa using hf
  simp [score, classify_eq, JsNumber.divLengths, h1, h2, JsNumber.mulPos, JsNumber.add, termScore,
    JsNumber.eqNum, JsNumber.geNum]

theorem score_additional (toLowerCase : String → String) (resumeText : String)
    (jobRole : JsValue) (rs rf : List String) :
    (score toLowerCase resumeText jobRole rs rf).additionalSkills =
        joinOrNone (missing toLowerCase resumeText rs) ∧
      (score toLowerCase resumeText jobRole rs rf).additionalFrameworks =
        joinOrNone (missing toLowerCase resumeText rf) ∧
      (score toLowerCase resumeText jobRole rs rf).jobRole = jobRole := by
  simp [score, classify_eq]

/-- The value of `score` on two non-empty token lists, field by field. -/
theorem score_eq (toLowerCase : String → String) (resumeText : String)
    (jobRole : JsValue) (rs rf : List String) (hs : rs ≠ []) (hf : rf ≠ []) :
    score toLowerCase resumeText jobRole rs rf =
      ⟨jobRole,
       .num (termScore toLowerCase resumeText rs + termScore toLowerCase resumeText rf),
       joinOrNone (missing toLowerCase resumeText rs),
       joinOrNone (missing toLowerCase resumeText rf),
       if termScore toLowerCase resumeText rs + termScore toLowerCase resumeText rf = 100 then
         perfectMessage
       else if 50 ≤ termScore toLowerCase resumeText rs + termScore toLowerCase resumeText rf then
         partialPrefix ++ join (missing toLowerCase resumeText rs) ++ ", " ++
           join (missing toLowerCase resumeText rf)
       else
         improvePrefix ++ join (missing toLowerCase resumeText rs) ++ ", " ++
           join (missing toLowerCase resumeText rf)⟩ := by
  have hp := score_probability toLowerCase resumeText jobRole rs rf hs hf
  have hfb := score_feedback toLowerCase resumeText jobRole rs rf hs hf
  obtain ⟨h1, h2, h3⟩ := score_additional toLowerCase resumeText jobRole rs rf
  cases hsc : score toLowerCase resumeText jobRole rs rf with
  | mk a b c d e =>
    rw [hsc] at hp hfb h1 h2 h3
    simp only at hp hfb h1 h2 h3
    subst hp hfb h1 h2 h3
    rfl

theorem matched_eq_self (toLowerCase : String → String) (resumeText : String)
    (required : List String)
    (h : ∀ t ∈ required, tokenFound toLowerCase resumeText t = true) :
    matched toLowerCase resumeText required = required ∧
      missing toLowerCase resumeText required = [] := by
  constructor
  · exact List.filter_eq_self.mpr h
  · refine List.filter_eq_nil_iff.mpr ?_
    intro t ht
    simp [h t ht]

theorem matched_eq_nil (toLowerCase : String → String) (resumeText : String)
    (required : List String)
    (h : ∀ t ∈ required, tokenFound toLowerCase resumeText t = false) :
    matched toLowerCase resumeText required = [] ∧
      missing toLowerCase resumeText required = required := by
  constructor
  · refine List.filter_eq_nil_iff.mpr ?_
    intro t ht
    simp [h t ht]
  · refine List.filter_eq_self.mpr ?_
    intro t ht
    simp [h t ht]

theorem termScore_all (toLowerCase : String → String) (resumeText : String)
    (required : List String) (hne : required ≠ [])
    (h : ∀ t ∈ required, tokenFound toLowerCase resumeText t = true) :
    termScore toLowerCase resumeText required = 50 := by
  have hlen : (required.length : ℚ) ≠ 0 := by
    have : required.length ≠ 0 := by simpa using hne
    exact_mod_cast this
  simp [termScore, (matched_eq_self toLowerCase resumeText required h).1, div_self hlen]

theorem termScore_none (toLowerCase : String → String) (resumeText : String)
    (required : List String)
    (h : ∀ t ∈ required, tokenFound toLowerCase resumeText t = false) :
    termScore toLowerCase resumeText required = 0 := by
  simp [termScore, (matched_eq_nil toLowerCase resumeText required h).1]

theorem missing_ne_empty (toLowerCase : String → String) (hlower : toLowerCase "" = "")
    (resumeText : String) (required : List String) :
    ∀ t ∈ missing toLowerCase resumeText required, t ≠ "" := by
  intro t ht he
  have h2 := (List.mem_filter.mp ht).2
  rw [he] at h2
  simp [tokenFound, hlower, includes_empty] at h2

theorem joinOrNone_missing (toLowerCase : String → String) (hlower : toLowerCase "" = "")
    (resumeText : String) (required : List String) :
    joinOrNone (missing toLowerCase resumeText required) =
      if missing toLowerCase resumeText required = [] then "None"
      else join (missing toLowerCase resumeText required) := by
  by_cases hm : missing toLowerCase resumeText required = []
  · simp [hm, joinOrNone, join]
  · have := join_ne_empty _ hm (missing_ne_empty toLowerCase hlower resumeText required)
    simp [hm, joinOrNone, this]

theorem score_congr (toLowerCase : String → String) (resume1 resume2 : String)
    (h : toLowerCase resume1 = toLowerCase resume2) (jobRole : JsValue)
    (rs rf : List String) :
    score toLowerCase resume1 jobRole rs rf = score toLowerCase resume2 jobRole rs rf := by
  simp [score, classify, tokenFound, h]

/-- A matching row whose skills or frameworks field is not a string makes
`analyzeResume` throw. -/
theorem analyzeResume_nonstring_field (toLowerCase : String → String) (resumeText : String)
    (jobRole : JsValue) (pre post : List Row) (role skills frameworks : JsValue)
    (hpre : ∀ item ∈ pre, strictEq item.jobRoles jobRole = false)
    (hrow : strictEq role jobRole = true)
    (h : (∀ s, skills ≠ .str s) ∨ (∀ f, frameworks ≠ .str f)) :
    analyzeResume toLowerCase resumeText jobRole (pre ++ ⟨role, skills, frameworks⟩ :: post) =
      .error .typeError := by
  have hf := find_first jobRole pre post ⟨role, skills, frameworks⟩ hpre hrow
  cases skills with
  | str s =>
    cases frameworks with
    | str f => rcases h with h | h
               · exact absurd rfl (h s)
               · exact absurd rfl (h f)
    | undefined => simp [analyzeResume, hf, requiredTokens]
    | number n => simp [analyzeResume, hf, requiredTokens]
    | bool b => simp [analyzeResume, hf, requiredTokens]
  | undefined => simp [analyzeResume, hf, requiredTokens]
  | number n => simp [analyzeResume, hf, requiredTokens]
  | bool b => simp [analyzeResume, hf, requiredTokens]

/-- The result of `analyzeResume` is never an object with a `NaN`
probability. -/
theorem analyzeResume_not_nan (toLowerCase : String → String) (resumeText : String)
    (jobRole : JsValue) (excelData : List Row) (res : AnalysisResult)
    (h : analyzeResume toLowerCase resumeText jobRole excelData = .ok res) :
    ∃ p : ℚ, res.probability = .num p ∧ 0 ≤ p ∧ p ≤ 100 := by
  unfold analyzeResume at h
  split at h
  · injection h with h
    subst h
    exact ⟨0, rfl, le_refl _, by norm_num⟩
  · rename_i jobData _
    cases hs : jobData.programmingSkills with
    | str skills =>
      cases hf : jobData.frameworks with
      | str frameworks =>
        simp only [hs, hf, requiredTokens] at h
        injection h with h
        subst h
        have hsc := score_eq toLowerCase resumeText jobRole _ _ (tokens_ne_nil skills)
          (tokens_ne_nil frameworks)
        unfold tokens at hsc
        rw [hsc]
        have a0 := termScore_nonneg toLowerCase resumeText (List.map trim (split skills))
        have a1 := termScore_le toLowerCase resumeText (List.map trim (split skills))
        have b0 := termScore_nonneg toLowerCase resumeText (List.map trim (split frameworks))
        have b1 := termScore_le toLowerCase resumeText (List.map trim (split frameworks))
        exact ⟨_, rfl, by linarith, by linarith⟩
      | undefined => simp [hs, hf, requiredTokens] at h
      | number n => simp [hs, hf, requiredTokens] at h
      | bool b => simp [hs, hf, requiredTokens] at h
    | undefined => simp [hs, requiredTokens] at h
    | number n => simp [hs, requiredTokens] at h
    | bool b => simp [hs, requiredTokens] at h

/-- On an empty token list the score computation would divide `0` by `0`. -/
theorem score_nil_nan (toLowerCase : String → String) (resumeText : String)
    (jobRole : JsValue) (rf : List String) :
    (score toLowerCase resumeText jobRole [] rf).probability = .nan := by
  simp [score, classify, JsNumber.divLengths, JsNumber.mulPos, JsNumber.add]

theorem tokens_empty : tokens "" = [""] := by decide

theorem termScore_empty_field (toLowerCase : String → String) (hlower : toLowerCase "" = "")
    (resumeText : String) : termScore toLowerCase resumeText (tokens "") = 50 := by
  apply termScore_all toLowerCase resumeText _ (tokens_ne_nil "")
  intro t ht
  rw [tokens_empty] at ht
  simp at ht
  subst ht
  simp [tokenFound, hlower, includes_empty]

/-- The log after a first append to a path without a file. -/
theorem appendToExcel_first (r1 : SubmissionRecord) :
    appendToExcel none r1.toObject =
      some ⟨["UserData"], [("UserData",
        [logHeader.map (fun k => some (.str k)), List.replicate 8 (some (.str "")),
          r1.cells])]⟩ := by
  simp [appendToExcel, book_append_sheet, book_new, sheet_add_json, json_to_sheet, extendHeader,
    emptyRecord, overlay, overlayRow, rowCells, sheet_to_json, headerNames, makeJsonRow, setSheet,
    logHeader, SubmissionRecord.toObject, SubmissionRecord.cells, List.lookup]

/-! ## The claims -/

/-- C1: when no row of the catalog has a `JOB ROLES` value strictly equal to
the requested role, `analyzeResume` returns probability 0, the requested role,
and the fixed message `Job role not found in the dataset` in
`additionalSkills`, `additionalFrameworks` and `feedback`; this covers the
empty catalog that `readExcelData` returns when the dataset cannot be read. -/
theorem analyzeResume_role_not_found (toLowerCase : String → String) (resumeText : String)
    (jobRole : JsValue) (excelData : List Row)
    (h : ∀ item ∈ excelData, strictEq item.jobRoles jobRole = false) :
    analyzeResume toLowerCase resumeText jobRole excelData =
        .ok ⟨jobRole, .num 0, "Job role not found in the dataset",
          "Job role not found in the dataset", "Job role not found in the dataset"⟩ ∧
      ∀ e : JsError, analyzeResume toLowerCase resumeText jobRole (readExcelData (.error e)) =
        .ok ⟨jobRole, .num 0, "Job role not found in the dataset",
          "Job role not found in the dataset", "Job role not found in the dataset"⟩ := by
  constructor
  · simp [analyzeResume, find_none jobRole excelData h, notFoundMessage]
  · intro e
    simp [analyzeResume, readExcelData, notFoundMessage]

/-- Witness of C1: a catalog without the requested role. -/
theorem analyzeResume_role_not_found_witness :
    analyzeResume asciiLower "Python and Django" (.str "Pilot")
        [⟨.str "Chef", .str "Knife", .str "Oven"⟩, ⟨.undefined, .str "a", .str "b"⟩] =
      .ok ⟨.str "Pilot", .num 0, "Job role not found in the dataset",
        "Job role not found in the dataset", "Job role not found in the dataset"⟩ :=
  (analyzeResume_role_not_found asciiLower "Python and Django" (.str "Pilot")
    [⟨.str "Chef", .str "Knife", .str "Oven"⟩, ⟨.undefined, .str "a", .str "b"⟩]
    (by decide)).1

/-- C2: when every skill token and every framework token of the first row
matching the requested role occurs in the resume text, compared in lower case,
`analyzeResume` returns probability 100 and the congratulatory feedback. -/
theorem analyzeResume_all_matched (toLowerCase : String → String) (resumeText : String)
    (jobRole : JsValue) (pre post : List Row) (role : JsValue) (skills frameworks : String)
    (hpre : ∀ item ∈ pre, strictEq item.jobRoles jobRole = false)
    (hrow : strictEq role jobRole = true)
    (hs : ∀ t ∈ tokens skills, includes (toLowerCase resumeText) (toLowerCase t) = true)
    (hf : ∀ t ∈ tokens frameworks, includes (toLowerCase resumeText) (toLowerCase t) = true) :
    analyzeResume toLowerCase resumeText jobRole
        (pre ++ ⟨role, .str skills, .str frameworks⟩ :: post) =
      .ok ⟨jobRole, .num 100, "None", "None",
        "Great job! You are a perfect match for this role!"⟩ := by
  rw [analyzeResume_found toLowerCase resumeText jobRole pre post role skills frameworks hpre hrow,
    score_eq toLowerCase resumeText jobRole _ _ (tokens_ne_nil skills) (tokens_ne_nil frameworks),
    termScore_all toLowerCase resumeText _ (tokens_ne_nil skills) hs,
    termScore_all toLowerCase resumeText _ (tokens_ne_nil frameworks) hf,
    (matched_eq_self toLowerCase resumeText _ hs).2,
    (matched_eq_self toLowerCase resumeText _ hf).2]
  norm_num [joinOrNone, join, perfectMessage]

/-- Witness of C2: a resume that names both requirements of the role. -/
theorem analyzeResume_all_matched_witness :
    analyzeResume asciiLower "Python and Django, five years" (.str "Web Developer")
        ([⟨.str "Chef", .str "Knife", .str "Oven"⟩] ++
          ⟨.str "Web Developer", .str " python ", .str "DJANGO"⟩ :: []) =
      .ok ⟨.str "Web Developer", .num 100, "None", "None",
        "Great job! You are a perfect match for this role!"⟩ :=
  analyzeResume_all_matched asciiLower "Python and Django, five years" (.str "Web Developer")
    [⟨.str "Chef", .str "Knife", .str "Oven"⟩] [] (.str "Web Developer") " python " "DJANGO"
    (by decide) (by decide) (by decide) (by decide)

/-- C3: when none of the skill tokens and none of the framework tokens of the
first row matching the requested role occurs in the resume text, compared in
lower case, `analyzeResume` returns probability 0 and the improvement-needed
message followed by all required skills and then all required frameworks, in
catalog order, joined by `, `. -/
theorem analyzeResume_none_matched (toLowerCase : String → String) (resumeText : String)
    (jobRole : JsValue) (pre post : List Row) (role : JsValue) (skills frameworks : String)
    (hpre : ∀ item ∈ pre, strictEq item.jobRoles jobRole = false)
    (hrow : strictEq role jobRole = true)
    (hs : ∀ t ∈ tokens skills, includes (toLowerCase resumeText) (toLowerCase t) = false)
    (hf : ∀ t ∈ tokens frameworks, includes (toLowerCase resumeText) (toLowerCase t) = false) :
    ∃ res : AnalysisResult,
      analyzeResume toLowerCase resumeText jobRole
          (pre ++ ⟨role, .str skills, .str frameworks⟩ :: post) = .ok res ∧
      res.probability = .num 0 ∧
      res.feedback =
        "You need to improve your skills and frameworks significantly. Consider learning: " ++
          join (tokens skills ++ tokens frameworks) := by
  refine ⟨_, analyzeResume_found toLowerCase resumeText jobRole pre post role skills frameworks
    hpre hrow, ?_, ?_⟩
  · rw [score_eq toLowerCase resumeText jobRole _ _ (tokens_ne_nil skills)
      (tokens_ne_nil frameworks),
      termScore_none toLowerCase resumeText _ hs, termScore_none toLowerCase resumeText _ hf]
    norm_num
  · rw [score_eq toLowerCase resumeText jobRole _ _ (tokens_ne_nil skills)
      (tokens_ne_nil frameworks),
      termScore_none toLowerCase resumeText _ hs, termScore_none toLowerCase resumeText _ hf,
      (matched_eq_nil toLowerCase resumeText _ hs).2,
      (matched_eq_nil toLowerCase resumeText _ hf).2,
      join_append _ _ (tokens_ne_nil skills) (tokens_ne_nil frameworks)]
    norm_num [improvePrefix, String.append_assoc]

/-- Witness of C3: a resume that names none of the requirements. -/
theorem analyzeResume_none_matched_witness :
    ∃ res : AnalysisResult,
      analyzeResume asciiLower "I bake bread" (.str "Web Developer")
          ([] ++ ⟨.str "Web Developer", .str "Python, Go", .str "Django,Flask"⟩ :: []) =
        .ok res ∧
      res.probability = .num 0 ∧
      res.feedback =
        "You need to improve your skills and frameworks significantly. Consider learning: " ++
          join (tokens "Python, Go" ++ tokens "Django,Flask") :=
  analyzeResume_none_matched asciiLower "I bake bread" (.str "Web Developer")
    [] [] (.str "Web Developer") "Python, Go" "Django,Flask"
    (by decide) (by decide) (by decide) (by decide)

/-- C5: with a catalog row for `Backend Engineer` whose skills field is
`Go,SQL` and whose frameworks field is `gRPC`, every resume text that contains
`Go` and `gRPC` but not `SQL`, compared in lower case, gets probability 75
(skills term 25, frameworks term 50), `SQL` as the only missing skill, no
missing framework, and the partial-match feedback listing `SQL` alone. -/
theorem analyzeResume_backend_engineer (toLowerCase : String → String) (resumeText : String)
    (pre post : List Row)
    (hpre : ∀ item ∈ pre, strictEq item.jobRoles (.str "Backend Engineer") = false)
    (hGo : includes (toLowerCase resumeText) (toLowerCase "Go") = true)
    (hGrpc : includes (toLowerCase resumeText) (toLowerCase "gRPC") = true)
    (hSql : includes (toLowerCase resumeText) (toLowerCase "SQL") = false) :
    analyzeResume toLowerCase resumeText (.str "Backend Engineer")
        (pre ++ ⟨.str "Backend Engineer", .str "Go,SQL", .str "gRPC"⟩ :: post) =
      .ok ⟨.str "Backend Engineer", .num 75, "SQL", "None",
        "You have some of the required skills and frameworks. Consider improving: SQL, "⟩ ∧
    termScore toLowerCase resumeText (tokens "Go,SQL") = 25 ∧
    termScore toLowerCase resumeText (tokens "gRPC") = 50 ∧
    matched toLowerCase resumeText (tokens "Go,SQL") = ["Go"] ∧
    missing toLowerCase resumeText (tokens "Go,SQL") = ["SQL"] ∧
    matched toLowerCase resumeText (tokens "gRPC") = ["gRPC"] ∧
    missing toLowerCase resumeText (tokens "gRPC") = [] := by
  have ts : tokens "Go,SQL" = ["Go", "SQL"] := by decide
  have tf : tokens "gRPC" = ["gRPC"] := by decide
  have m1 : matched toLowerCase resumeText (tokens "Go,SQL") = ["Go"] := by
    simp [ts, matched, tokenFound, hGo, hSql]
  have m2 : missing toLowerCase resumeText (tokens "Go,SQL") = ["SQL"] := by
    simp [ts, missing, tokenFound, hGo, hSql]
  have m3 : matched toLowerCase resumeText (tokens "gRPC") = ["gRPC"] := by
    simp [tf, matched, tokenFound, hGrpc]
  have m4 : missing toLowerCase resumeText (tokens "gRPC") = [] := by
    simp [tf, missing, tokenFound, hGrpc]
  have s1 : termScore toLowerCase resumeText (tokens "Go,SQL") = 25 := by
    rw [termScore, m1, ts]; norm_num
  have s2 : termScore toLowerCase resumeText (tokens "gRPC") = 50 := by
    rw [termScore, m3, tf]; norm_num
  refine ⟨?_, s1, s2, m1, m2, m3, m4⟩
  rw [analyzeResume_found toLowerCase resumeText (.str "Backend Engineer") pre post
      (.str "Backend Engineer") "Go,SQL" "gRPC" hpre (by decide),
    score_eq toLowerCase resumeText _ _ _ (tokens_ne_nil "Go,SQL") (tokens_ne_nil "gRPC"),
    s1, s2, m2, m4]
  norm_num [joinOrNone, join, partialPrefix]
  decide

/-- Witness of C5: the resume text `I used Go and gRPC daily`. -/
theorem analyzeResume_backend_engineer_witness :
    analyzeResume asciiLower "I used Go and gRPC daily" (.str "Backend Engineer")
        ([⟨.str "Data Analyst", .str "SQL,R", .str "Pandas"⟩] ++
          ⟨.str "Backend Engineer", .str "Go,SQL", .str "gRPC"⟩ :: []) =
      .ok ⟨.str "Backend Engineer", .num 75, "SQL", "None",
        "You have some of the required skills and frameworks. Consider improving: SQL, "⟩ :=
  (analyzeResume_backend_engineer asciiLower "I used Go and gRPC daily"
    [⟨.str "Data Analyst", .str "SQL,R", .str "Pandas"⟩] []
    (by decide) (by decide) (by decide) (by decide)).1

/-- C7: matching is case-insensitive.  A required token is classified as
matched exactly when its lowered form is a substring of the lowered resume
text, so two resume texts with the same lowered form get the same
classification of every token list and the same result for every catalog and
role. -/
theorem analyzeResume_case_insensitive (toLowerCase : String → String)
    (resume1 resume2 : String) (h : toLowerCase resume1 = toLowerCase resume2) :
    (∀ required : List String,
      (classify toLowerCase resume1 required).1 =
          required.filter (fun t => includes (toLowerCase resume1) (toLowerCase t)) ∧
        (classify toLowerCase resume1 required).2 =
          required.filter (fun t => !includes (toLowerCase resume1) (toLowerCase t))) ∧
    (∀ required : List String,
      classify toLowerCase resume1 required = classify toLowerCase resume2 required) ∧
    (∀ (jobRole : JsValue) (excelData : List Row),
      analyzeResume toLowerCase resume1 jobRole excelData =
        analyzeResume toLowerCase resume2 jobRole excelData) := by
  refine ⟨fun required => ?_, fun required => ?_, fun jobRole excelData => ?_⟩
  · rw [classify_eq]
    exact ⟨rfl, rfl⟩
  · simp [classify, tokenFound, h]
  · simp [analyzeResume, score_congr toLowerCase resume1 resume2 h]

/-- Witness of C7: the token `Python` against `python` and against `PYTHON`. -/
theorem analyzeResume_case_insensitive_witness :
    classify asciiLower "i know python" ["Python", "Go"] = (["Python"], ["Go"]) ∧
    classify asciiLower "I KNOW PYTHON" ["Python", "Go"] = (["Python"], ["Go"]) ∧
    analyzeResume asciiLower "i know python" (.str "Dev")
        [⟨.str "Dev", .str "Python,Go", .str "Flask"⟩] =
      analyzeResume asciiLower "I KNOW PYTHON" (.str "Dev")
        [⟨.str "Dev", .str "Python,Go", .str "Flask"⟩] :=
  ⟨by decide, by decide,
    (analyzeResume_case_insensitive asciiLower "i know python" "I KNOW PYTHON"
      (by decide)).2.2 (.str "Dev") [⟨.str "Dev", .str "Python,Go", .str "Flask"⟩]⟩

/-- C8: when the role is found, `additionalSkills` is the literal `None` when
no required skill is missing and otherwise the missing skills in catalog order
joined by `, `; the same holds for `additionalFrameworks`.  The feedback is
built from the joined missing lists themselves, into which the placeholder is
not inserted. -/
theorem analyzeResume_additional_fields (toLowerCase : String → String)
    (hlower : toLowerCase "" = "")
    (resumeText : String) (jobRole : JsValue) (pre post : List Row) (role : JsValue)
    (skills frameworks : String)
    (hpre : ∀ item ∈ pre, strictEq item.jobRoles jobRole = false)
    (hrow : strictEq role jobRole = true) :
    ∃ res : AnalysisResult,
      analyzeResume toLowerCase resumeText jobRole
          (pre ++ ⟨role, .str skills, .str frameworks⟩ :: post) = .ok res ∧
      res.additionalSkills =
        (if missing toLowerCase resumeText (tokens skills) = [] then "None"
         else join (missing toLowerCase resumeText (tokens skills))) ∧
      res.additionalFrameworks =
        (if missing toLowerCase resumeText (tokens frameworks) = [] then "None"
         else join (missing toLowerCase resumeText (tokens frameworks))) ∧
      (res.feedback = "Great job! You are a perfect match for this role!" ∨
       res.feedback =
        "You have some of the required skills and frameworks. Consider improving: " ++
          join (missing toLowerCase resumeText (tokens skills)) ++ ", " ++
          join (missing toLowerCase resumeText (tokens frameworks)) ∨
       res.feedback =
        "You need to improve your skills and frameworks significantly. Consider learning: " ++
          join (missing toLowerCase resumeText (tokens skills)) ++ ", " ++
          join (missing toLowerCase resumeText (tokens frameworks))) := by
  refine ⟨_, analyzeResume_found toLowerCase resumeText jobRole pre post role skills frameworks
    hpre hrow, ?_, ?_, ?_⟩
  · rw [score_eq toLowerCase resumeText jobRole _ _ (tokens_ne_nil skills)
      (tokens_ne_nil frameworks)]
    exact joinOrNone_missing toLowerCase hlower resumeText (tokens skills)
  · rw [score_eq toLowerCase resumeText jobRole _ _ (tokens_ne_nil skills)
      (tokens_ne_nil frameworks)]
    exact joinOrNone_missing toLowerCase hlower resumeText (tokens frameworks)
  · rw [score_eq toLowerCase resumeText jobRole _ _ (tokens_ne_nil skills)
      (tokens_ne_nil frameworks)]
    simp only
    split
    · exact Or.inl rfl
    · split
      · exact Or.inr (Or.inl rfl)
      · exact Or.inr (Or.inr rfl)

/-- Witness of C8: one missing skill, no missing framework. -/
theorem analyzeResume_additional_fields_witness :
    ∃ res : AnalysisResult,
      analyzeResume asciiLower "Go and Flask" (.str "Web Developer")
          ([] ++ ⟨.str "Web Developer", .str "Python, Go", .str "Flask"⟩ :: []) = .ok res ∧
      res.additionalSkills =
        (if missing asciiLower "Go and Flask" (tokens "Python, Go") = [] then "None"
         else join (missing asciiLower "Go and Flask" (tokens "Python, Go"))) ∧
      res.additionalFrameworks =
        (if missing asciiLower "Go and Flask" (tokens "Flask") = [] then "None"
         else join (missing asciiLower "Go and Flask" (tokens "Flask"))) ∧
      (res.feedback = "Great job! You are a perfect match for this role!" ∨
       res.feedback =
        "You have some of the required skills and frameworks. Consider improving: " ++
          join (missing asciiLower "Go and Flask" (tokens "Python, Go")) ++ ", " ++
          join (missing asciiLower "Go and Flask" (tokens "Flask")) ∨
       res.feedback =
        "You need to improve your skills and frameworks significantly. Consider learning: " ++
          join (missing asciiLower "Go and Flask" (tokens "Python, Go")) ++ ", " ++
          join (missing asciiLower "Go and Flask" (tokens "Flask"))) :=
  analyzeResume_additional_fields asciiLower (by decide) "Go and Flask" (.str "Web Developer")
    [] [] (.str "Web Developer") "Python, Go" "Flask" (by decide) (by decide)

/-- C9, as stated, fails: no string field has an empty token list, and no
input makes `analyzeResume` return a `NaN` probability. -/
theorem analyzeResume_never_nan :
    (¬ ∃ field : String, (tokens field).length = 0) ∧
    ¬ ∃ (toLowerCase : String → String) (resumeText : String) (jobRole : JsValue)
        (excelData : List Row) (res : AnalysisResult),
      (∃ item ∈ excelData, strictEq item.jobRoles jobRole = true) ∧
      analyzeResume toLowerCase resumeText jobRole excelData = .ok res ∧
      res.probability = .nan := by
  constructor
  · rintro ⟨field, h⟩
    exact absurd h (Nat.pos_iff_ne_zero.mp (tokens_length_pos field))
  · rintro ⟨toLowerCase, resumeText, jobRole, excelData, res, _, h, hn⟩
    obtain ⟨p, hp, _, _⟩ := analyzeResume_not_nan toLowerCase resumeText jobRole excelData res h
    rw [hp] at hn
    exact JsNumber.noConfusion hn

/-- C9, amended: when the role is found and its skills and frameworks fields
are strings, each requirement list has at least one token, an empty field
being the single empty token, which occurs in every resume text and earns the
full 50 of its term; the score computation does not divide by zero and the
probability returned is a number in [0, 100]. -/
theorem analyzeResume_empty_requirements (toLowerCase : String → String)
    (hlower : toLowerCase "" = "")
    (resumeText : String) (jobRole : JsValue) (pre post : List Row) (role : JsValue)
    (skills frameworks : String)
    (hpre : ∀ item ∈ pre, strictEq item.jobRoles jobRole = false)
    (hrow : strictEq role jobRole = true) :
    0 < (tokens skills).length ∧ 0 < (tokens frameworks).length ∧
    tokens "" = [""] ∧
    termScore toLowerCase resumeText (tokens "") = 50 ∧
    ∃ (res : AnalysisResult) (p : ℚ),
      analyzeResume toLowerCase resumeText jobRole
          (pre ++ ⟨role, .str skills, .str frameworks⟩ :: post) = .ok res ∧
      res.probability = .num p ∧ 0 ≤ p ∧ p ≤ 100 := by
  have hfound := analyzeResume_found toLowerCase resumeText jobRole pre post role skills
    frameworks hpre hrow
  obtain ⟨p, hp, h0, h1⟩ := analyzeResume_not_nan toLowerCase resumeText jobRole _ _ hfound
  exact ⟨tokens_length_pos skills, tokens_length_pos frameworks, tokens_empty,
    termScore_empty_field toLowerCase hlower resumeText, _, p, hfound, hp, h0, h1⟩

/-- Witness of the amended C9: a row whose skills and frameworks fields are
both the empty string. -/
theorem analyzeResume_empty_requirements_witness :
    0 < (tokens "").length ∧ 0 < (tokens "").length ∧
    tokens "" = [""] ∧
    termScore asciiLower "I bake bread" (tokens "") = 50 ∧
    ∃ (res : AnalysisResult) (p : ℚ),
      analyzeResume asciiLower "I bake bread" (.str "Baker")
          ([] ++ ⟨.str "Baker", .str "", .str ""⟩ :: []) = .ok res ∧
      res.probability = .num p ∧ 0 ≤ p ∧ p ≤ 100 :=
  analyzeResume_empty_requirements asciiLower (by decide) "I bake bread" (.str "Baker")
    [] [] (.str "Baker") "" "" (by decide) (by decide)

/-- C10, what the code does: two appends from a path without a file leave the
8-column header, then a row of eight empty text cells, then the row of the
first record, then the row of the second; read back, the log has three data
rows, not two. -/
theorem appendToExcel_twice_blank_row (r1 r2 : SubmissionRecord) :
    ∃ wb1 : Workbook,
      appendToExcel none r1.toObject = some wb1 ∧
      appendToExcel (some wb1) r2.toObject =
        some ⟨["UserData"], [("UserData",
          [[some (.str "First Name"), some (.str "Email"), some (.str "Phone"),
            some (.str "Signup Date"), some (.str "Signup Time"), some (.str "Job Role"),
            some (.str "Probability Score"), some (.str "Resume File")],
           [some (.str ""), some (.str ""), some (.str ""), some (.str ""), some (.str ""),
            some (.str ""), some (.str ""), some (.str "")],
           r1.cells, r2.cells])]⟩ ∧
      sheet_to_json
          [[some (.str "First Name"), some (.str "Email"), some (.str "Phone"),
            some (.str "Signup Date"), some (.str "Signup Time"), some (.str "Job Role"),
            some (.str "Probability Score"), some (.str "Resume File")],
           [some (.str ""), some (.str ""), some (.str ""), some (.str ""), some (.str ""),
            some (.str ""), some (.str ""), some (.str "")],
           r1.cells, r2.cells] =
        some [emptyRecord, r1.toObject, r2.toObject] := by
  refine ⟨_, appendToExcel_first r1, ?_, ?_⟩
  · simp [appendToExcel, sheet_add_json, json_to_sheet, extendHeader,
      emptyRecord, overlay, overlayRow, rowCells, sheet_to_json, headerNames, makeJsonRow, setSheet,
      logHeader, SubmissionRecord.toObject, SubmissionRecord.cells, List.lookup]
  · simp [emptyRecord, sheet_to_json, headerNames, makeJsonRow,
      SubmissionRecord.toObject, SubmissionRecord.cells]

end ResumeServer
